import Mathlib

/-!
Verification of the augurbot backend against its natural-language
specification.  The Python modules under backend/services and
backend/models are shallowly embedded: pure functions become Lean
functions over rationals, database tables become lists of row
structures, and the relevant pipeline steps become explicit state
transformers.  Floats are modelled as exact rationals; the Python
builtin round (banker rounding) is modelled by round_half_even on
rationals.
-/

namespace Augur

-- Settings defaults from backend/config.py.
namespace Settings

def min_edge_threshold : ℚ := 0.03

def kelly_fraction : ℚ := 0.33

def max_single_bet_fraction : ℚ := 0.05

def polymarket_fee : ℚ := 0.02

def manifold_fee : ℚ := 0

def bankroll : ℚ := 10000

def default_model : String := "claude-sonnet-4-5-20250929"

def high_value_model : String := "claude-opus-4-6"

def high_value_volume_threshold : ℚ := 100000

end Settings

/-- Confidence enum from backend/models/schemas.py. -/
inductive Confidence where
  | high
  | medium
  | low
deriving DecidableEq

/-- The confidence argument of should_recommend is typed
Confidence | str | None in the source; this models the non-None part. -/
inductive ConfValue where
  | conf (c : Confidence)
  | str (s : String)
deriving DecidableEq

/-- Conversion Confidence(value) of the Python str enum: returns the
member whose value matches, and raises ValueError (here: none) for any
other string. -/
def confidence_of_string (s : String) : Option Confidence :=
  if s = "high" then some Confidence.high
  else if s = "medium" then some Confidence.medium
  else if s = "low" then some Confidence.low
  else none

/-- Banker rounding to an integer, the semantics of the Python builtin
round on the exact value. -/
def round_half_even (x : ℚ) : ℤ :=
  let f := ⌊x⌋
  let r := x - f
  if r < 1/2 then f
  else if 1/2 < r then f + 1
  else if f % 2 = 0 then f else f + 1

/-- Python round(x, ndigits) on the exact rational value. -/
def py_round (x : ℚ) (ndigits : ℕ) : ℚ :=
  let m : ℚ := (10 : ℚ) ^ ndigits
  (round_half_even (x * m) : ℚ) / m

/-- kalshi_fee from backend/services/calculator.py: 0.07 × price × (1 − price). -/
def kalshi_fee (market_price : ℚ) : ℚ :=
  0.07 * market_price * (1 - market_price)

/-- PLATFORM_FEES table from calculator.py. -/
def PLATFORM_FEES : List (String × ℚ) :=
  [("polymarket", Settings.polymarket_fee), ("manifold", Settings.manifold_fee)]

/-- get_platform_fee from calculator.py. -/
def get_platform_fee (platform : String) (market_price : ℚ) : ℚ :=
  if platform = "kalshi" then kalshi_fee market_price
  else
    match PLATFORM_FEES.find? (fun p => p.1 = platform) with
    | some p => p.2
    | none => 0.02

/-- Result dict of calculate_ev. -/
structure EvResult where
  direction : String
  edge : ℚ
  ev : ℚ
deriving DecidableEq

/-- calculate_ev from calculator.py: evaluates both directions and
returns whichever has positive expected value, none if neither. -/
def calculate_ev (ai_probability market_price : ℚ) (platform : String) :
    Option EvResult :=
  let yes_edge := ai_probability - market_price
  let yes_fee := get_platform_fee platform market_price
  let yes_ev := yes_edge - yes_fee
  let no_edge := market_price - ai_probability
  let no_fee := get_platform_fee platform (1 - market_price)
  let no_ev := no_edge - no_fee
  if 0 < yes_ev ∧ no_ev ≤ yes_ev then
    some { direction := "yes", edge := py_round yes_edge 4, ev := py_round yes_ev 4 }
  else if 0 < no_ev then
    some { direction := "no", edge := py_round no_edge 4, ev := py_round no_ev 4 }
  else none

/-- CONFIDENCE_MULTIPLIERS from calculator.py. -/
def CONFIDENCE_MULTIPLIERS (c : Confidence) : ℚ :=
  match c with
  | Confidence.high => 1
  | Confidence.medium => 0.6
  | Confidence.low => 0.3

/-- calculate_kelly from calculator.py.  The two early returns 0.0 on a
non-positive denominator are modelled by the none branch. -/
def calculate_kelly (edge market_price : ℚ) (direction : String)
    (confidence : Confidence) (kelly_fraction max_bet_fraction : Option ℚ) : ℚ :=
  let kf := kelly_fraction.getD Settings.kelly_fraction
  let mbf := max_bet_fraction.getD Settings.max_single_bet_fraction
  let full_kelly : Option ℚ :=
    if direction = "yes" then
      (if 1 - market_price ≤ 0 then none else some (edge / (1 - market_price)))
    else
      (if market_price ≤ 0 then none else some (edge / market_price))
  match full_kelly with
  | none => 0
  | some fk =>
      let adjusted := fk * kf * CONFIDENCE_MULTIPLIERS confidence
      py_round (max 0 (min adjusted mbf)) 4

/-- calculate_brier_score from calculator.py. -/
def calculate_brier_score (probability : ℚ) (outcome : Bool) : ℚ :=
  let outcome_val : ℚ := if outcome then 1 else 0
  py_round ((probability - outcome_val) ^ 2) 4

/-- calculate_pnl from calculator.py. -/
def calculate_pnl (market_price : ℚ) (direction : String) (outcome : Bool)
    (kelly_fraction_used bankroll : ℚ) : ℚ :=
  let wager := kelly_fraction_used * bankroll
  if direction = "yes" then
    if outcome then py_round (wager * (1 - market_price) / market_price) 4
    else py_round (-wager) 4
  else
    if outcome then py_round (-wager) 4
    else
      let no_price := 1 - market_price
      if no_price ≤ 0 then 0
      else py_round (wager * market_price / no_price) 4

/-- The confidence-gated part of should_recommend from calculator.py
(the code after the weak-estimate filter), with the value of the
trailing fallback line exposed as a parameter so that its
unreachability can be stated.  Exceptions are modelled with Except: the
ValueError raised by Confidence(confidence) on an unknown string
becomes an error value. -/
def confidence_branch_eval (trailing : Bool) (ev : ℚ)
    (confidence : Option ConfValue) (min_edge : Option ℚ) : Except String Bool :=
  match confidence with
  | some cv =>
      let conv : Option Confidence :=
        match cv with
        | ConfValue.conf c => some c
        | ConfValue.str s => confidence_of_string s
      match conv with
      | none => Except.error "ValueError: invalid Confidence"
      | some c =>
          if c = Confidence.low then Except.ok false
          else if c = Confidence.medium then Except.ok (decide (0.08 ≤ ev))
          else if c = Confidence.high then Except.ok (decide (0.05 ≤ ev))
          else Except.ok trailing
  | none => Except.ok (decide (min_edge.getD Settings.min_edge_threshold ≤ ev))

def should_recommend_core (trailing : Bool) (ev : ℚ)
    (confidence : Option ConfValue) (ai_estimate : Option ℚ)
    (min_edge : Option ℚ) : Except String Bool :=
  match ai_estimate with
  | some a =>
      if 0.42 ≤ a ∧ a ≤ 0.58 then Except.ok (decide (0.12 ≤ ev))
      else confidence_branch_eval trailing ev confidence min_edge
  | none => confidence_branch_eval trailing ev confidence min_edge

/-- should_recommend as written: the trailing fallback line is
ev >= 0.08. -/
def should_recommend (ev : ℚ) (confidence : Option ConfValue)
    (ai_estimate : Option ℚ) (min_edge : Option ℚ) : Except String Bool :=
  should_recommend_core (decide (0.08 ≤ ev)) ev confidence ai_estimate min_edge

/-- The recommendation gate of scanner._finalize_market: compute EV from
the snapshot price and pass its ev field to should_recommend with no
other argument (confidence, ai_estimate and min_edge all absent). -/
def finalize_gate (probability snapshot_price_yes : ℚ) (platform : String) : Bool :=
  match calculate_ev probability snapshot_price_yes platform with
  | some ev_result =>
      match should_recommend ev_result.ev none none none with
      | Except.ok b => b
      | Except.error _ => false
  | none => false

/-- BlindMarketInput from backend/models/schemas.py: what reaches the
researcher — no price, no volume. -/
structure BlindMarketInput where
  question : String
  resolution_criteria : Option String
  close_date : Option String
  category : Option String
  sport_type : Option String
  calibration_feedback : Option String
deriving DecidableEq

/-- The four prompt template files read at import time by
backend/services/researcher.py (their text is data, not code). -/
structure PromptFiles where
  system_txt : String
  research_txt : String
  system_sports_txt : String
  research_sports_txt : String
deriving DecidableEq

/-- Python str.lower modelled as a character map (ASCII lowering),
written so that it reduces on literals. -/
def py_lower (s : String) : String :=
  String.mk (s.data.map Char.toLower)

/-- Python truthiness of an optional string: None and the empty string
are falsy. -/
def py_truthy (o : Option String) : Bool :=
  match o with
  | some s => decide (s ≠ "")
  | none => false

/-- The Python idiom value or default on an optional string. -/
def py_or_str (o : Option String) (d : String) : String :=
  match o with
  | some s => if s = "" then d else s
  | none => d

/-- Lookup of a named field in a format environment; a missing name is
left as literal placeholder text. -/
def lookup_env (env : List (String × String)) (name : String) : String :=
  match env.find? (fun p => p.1 = name) with
  | some p => p.2
  | none => "\x7b" ++ name ++ "\x7d"

/-- Recursive worker for render_template: outside braces characters are
copied, inside braces a field name is collected and substituted. -/
def render_go (env : List (String × String)) :
    List Char → Option (List Char) → List Char
  | [], _ => []
  | c :: rest, none =>
      if c = '\x7b' then render_go env rest (some [])
      else c :: render_go env rest none
  | c :: rest, some acc =>
      if c = '\x7d' then
        (lookup_env env (String.mk acc.reverse)).data ++ render_go env rest none
      else render_go env rest (some (c :: acc))

/-- Model of Python str.format with named fields, as used on the prompt
templates. -/
def render_template (tmpl : String) (env : List (String × String)) : String :=
  String.mk (render_go env tmpl.data none)

/-- The lowered category used as registry key in Researcher._get_prompts. -/
def lower_category (bi : BlindMarketInput) : String :=
  py_lower (py_or_str bi.category "")

/-- Membership in the _CATEGORY_PROMPTS registry (only sports is
registered). -/
def category_in_registry (bi : BlindMarketInput) : Bool :=
  decide (lower_category bi = "sports")

/-- Researcher._get_prompts: category-specific prompts when registered,
generic ones otherwise. -/
def get_prompts (files : PromptFiles) (bi : BlindMarketInput) : String × String :=
  if category_in_registry bi then (files.system_sports_txt, files.research_sports_txt)
  else (files.system_txt, files.research_txt)

/-- Researcher._build_blind_prompt: formats the research template with
only non-price fields of the blind input. -/
def build_blind_prompt (files : PromptFiles) (bi : BlindMarketInput) : String :=
  if category_in_registry bi then
    let calibration_section :=
      if py_truthy bi.calibration_feedback then
        "YOUR HISTORICAL PERFORMANCE (use this to calibrate):\n"
          ++ bi.calibration_feedback.getD ""
      else ""
    render_template files.research_sports_txt
      [("question", bi.question),
       ("resolution_criteria", py_or_str bi.resolution_criteria "Not specified"),
       ("close_date", py_or_str bi.close_date "Not specified"),
       ("sport_type", py_or_str bi.sport_type "Unknown"),
       ("calibration_section", calibration_section)]
  else
    render_template files.research_txt
      [("question", bi.question),
       ("resolution_criteria", py_or_str bi.resolution_criteria "Not specified"),
       ("close_date", py_or_str bi.close_date "Not specified"),
       ("category", py_or_str bi.category "General")]

/-- Researcher._select_model: manual or premium forces the high-value
model, else volume at or above the threshold selects it, else the
default model. -/
def select_model (volume : Option ℚ) (manual use_premium : Bool) : String :=
  if manual || use_premium then Settings.high_value_model
  else
    match volume with
    | some v =>
        if Settings.high_value_volume_threshold ≤ v then Settings.high_value_model
        else Settings.default_model
    | none => Settings.default_model

/-- The data Researcher.estimate sends to the model API before any
response arrives: chosen model, cached system prompt, user message. -/
structure EstimateCall where
  model : String
  system_prompt : String
  user_prompt : String
deriving DecidableEq

/-- The deterministic head of Researcher.estimate: model selection and
prompt construction, exactly as in lines 260-262 of researcher.py. -/
def estimate_call (files : PromptFiles) (bi : BlindMarketInput)
    (volume : Option ℚ) (manual use_premium : Bool) : EstimateCall :=
  { model := select_model volume manual use_premium
    system_prompt := (get_prompts files bi).1
    user_prompt := build_blind_prompt files bi }

/-- Trade row from backend/models/schemas.py (timestamps as naturals). -/
structure TradeRow where
  id : String
  market_id : String
  recommendation_id : Option String
  platform : String
  direction : String
  entry_price : ℚ
  amount : ℚ
  shares : Option ℚ
  status : String
  exit_price : Option ℚ
  pnl : Option ℚ
  fees_paid : ℚ
  notes : Option String
  source : String
  platform_trade_id : Option String
  created_at : ℕ
  closed_at : Option ℕ
deriving DecidableEq

/-- Market row (the columns the claims touch). -/
structure MarketRow where
  id : String
  platform : String
  platform_id : String
  status : String
  outcome : Option Bool
deriving DecidableEq

/-- Recommendation row (the columns the claims touch). -/
structure RecommendationRow where
  id : String
  market_id : String
  direction : String
  market_price : ℚ
  kelly_fraction : ℚ
  status : String
  created_at : ℕ
deriving DecidableEq

/-- Performance log row (the columns insert_performance writes). -/
structure PerformanceRow where
  market_id : String
  recommendation_id : Option String
  ai_probability : ℚ
  market_price : ℚ
  actual_outcome : Bool
  pnl : Option ℚ
  simulated_pnl : Option ℚ
  brier_score : ℚ
deriving DecidableEq

/-- Estimate row (the column resolve_market_trades reads). -/
structure EstimateRow where
  probability : ℚ
deriving DecidableEq

/-- Snapshot row (the column resolve_market_trades reads). -/
structure SnapshotRow where
  price_yes : ℚ
deriving DecidableEq

/-- The slice of the relational store the claims touch. -/
structure StoreState where
  markets : List MarketRow
  trades : List TradeRow
  recommendations : List RecommendationRow
  performance_log : List PerformanceRow
deriving DecidableEq

/-- insert_performance from backend/models/database.py: guarded insert —
if a row for the market already exists, log and return the skip sentinel
none without inserting. -/
def insert_performance (log : List PerformanceRow) (market_id : String)
    (ai_probability market_price : ℚ) (actual_outcome : Bool)
    (brier_score : ℚ) (recommendation_id : Option String)
    (pnl simulated_pnl : Option ℚ) :
    List PerformanceRow × Option PerformanceRow :=
  if log.any (fun r => decide (r.market_id = market_id)) then (log, none)
  else
    let row : PerformanceRow :=
      { market_id := market_id
        recommendation_id := recommendation_id
        ai_probability := ai_probability
        market_price := market_price
        actual_outcome := actual_outcome
        pnl := pnl
        simulated_pnl := simulated_pnl
        brier_score := brier_score }
    (log ++ [row], some row)

/-- Number of performance rows recorded for a market. -/
def perf_count (log : List PerformanceRow) (market_id : String) : ℕ :=
  log.countP (fun r => decide (r.market_id = market_id))

/-- The performance-log write of scanner.resolve_market_trades: when a
latest estimate and snapshot exist, compute Brier, realized and
simulated P&L and call insert_performance, discarding its sentinel (the
caller treats a skip as success). -/
def resolve_market_trades_perf (log : List PerformanceRow) (market_id : String)
    (outcome : Bool) (closed_trades : List TradeRow)
    (estimate : Option EstimateRow) (snapshot : Option SnapshotRow)
    (recommendation : Option RecommendationRow) (bankroll : ℚ) :
    List PerformanceRow :=
  match estimate, snapshot with
  | some e, some sn =>
      let brier := calculate_brier_score e.probability outcome
      let total_pnl := (closed_trades.map (fun t => t.pnl.getD 0)).sum
      let simulated_pnl :=
        recommendation.map
          (fun r => calculate_pnl r.market_price r.direction outcome r.kelly_fraction bankroll)
      (insert_performance log market_id e.probability sn.price_yes outcome brier
        (recommendation.map (fun r => r.id))
        (if closed_trades.isEmpty then none else some total_pnl)
        simulated_pnl).1
  | _, _ => log

/-- update_market_status from database.py: set status (and outcome only
when one is given). -/
def update_market_status (markets : List MarketRow) (market_id status : String)
    (outcome : Option Bool) : List MarketRow :=
  markets.map (fun m =>
    if m.id = market_id then
      { m with status := status
               outcome := match outcome with | some o => some o | none => m.outcome }
    else m)

/-- expire_recommendations from database.py: all active recommendations
of the market become expired. -/
def expire_recommendations (recs : List RecommendationRow) (market_id : String) :
    List RecommendationRow :=
  recs.map (fun r =>
    if r.market_id = market_id ∧ r.status = "active" then { r with status := "expired" }
    else r)

/-- cancel_trades_for_market from database.py: every open trade of the
market becomes cancelled with closed_at set and a note appended; no
other column is touched. -/
def cancel_trades_for_market (trades : List TradeRow) (market_id : String)
    (now : ℕ) : List TradeRow :=
  trades.map (fun t =>
    if t.market_id = market_id ∧ t.status = "open" then
      { t with status := "cancelled"
               closed_at := some now
               notes := some (((t.notes.getD "") ++ " [Market cancelled/voided]").trim) }
    else t)

/-- The cancelled branch of scanner.check_resolutions: mark the market
closed, expire its recommendations, cancel its open trades; the
performance log is not touched. -/
def handle_cancelled_resolution (s : StoreState) (market_id : String) (now : ℕ) :
    StoreState :=
  { s with
    markets := update_market_status s.markets market_id "closed" none
    recommendations := expire_recommendations s.recommendations market_id
    trades := cancel_trades_for_market s.trades market_id now }

/-- The platform_trade_id values already synced for a platform, from
trade_syncer._get_existing_synced_trade_ids (api_sync rows with a
non-null id). -/
def existing_synced_trade_ids (trades : List TradeRow) (platform : String) :
    List String :=
  (trades.filter (fun t =>
    decide (t.platform = platform ∧ t.source = "api_sync" ∧ t.platform_trade_id ≠ none))).filterMap
    (fun t => t.platform_trade_id)

/-- trade_syncer._get_market_id_by_platform. -/
def get_market_id_by_platform (markets : List MarketRow)
    (platform platform_id : String) : Option String :=
  (markets.find? (fun m => decide (m.platform = platform ∧ m.platform_id = platform_id))).map
    (fun m => m.id)

/-- The SQL pattern LIKE with pattern order underscore percent: five
literal characters, one arbitrary character, any tail. -/
def like_order_pattern (s : String) : Bool :=
  match s.data with
  | 'o' :: 'r' :: 'd' :: 'e' :: 'r' :: _ :: _ => true
  | _ => false

/-- Latest element by created_at (order by created_at desc limit 1). -/
def pick_latest {α : Type} (created_at : α → ℕ) (l : List α) : Option α :=
  l.foldl
    (fun acc t =>
      match acc with
      | none => some t
      | some u => if created_at u < created_at t then some t else some u)
    none

/-- find_order_trade_for_fill from database.py: the latest open trade of
the market and direction on the platform whose venue trade id matches
the order pattern. -/
def find_order_trade_for_fill (trades : List TradeRow)
    (market_id direction platform : String) : Option TradeRow :=
  pick_latest (fun t => t.created_at)
    (trades.filter (fun t =>
      decide (t.platform = platform) && decide (t.market_id = market_id)
        && decide (t.direction = direction) && decide (t.status = "open")
        && (match t.platform_trade_id with
            | some pid => like_order_pattern pid
            | none => false)))

/-- trade_syncer._get_recommendation_for_market: id of the latest
recommendation of the market. -/
def get_recommendation_for_market (recs : List RecommendationRow)
    (market_id : String) : Option String :=
  (pick_latest (fun r => r.created_at)
    (recs.filter (fun r => decide (r.market_id = market_id)))).map (fun r => r.id)

/-- update_trade from database.py: update the row with the given id. -/
def update_trade_row (trades : List TradeRow) (trade_id : String)
    (f : TradeRow → TradeRow) : List TradeRow :=
  trades.map (fun t => if t.id = trade_id then f t else t)

/-- A fill from the Kalshi portfolio/fills endpoint (prices in cents,
as delivered). -/
structure KalshiFill where
  fill_id : String
  ticker : String
  side : String
  action : String
  count : ℤ
  yes_price : ℚ
  no_price : ℚ
  fee_cost : ℚ
deriving DecidableEq

/-- Direction derived from a fill in sync_kalshi_trades. -/
def sync_direction (fill : KalshiFill) : String :=
  let side := py_lower fill.side
  if side = "yes" ∨ side = "no" then side else "yes"

/-- Entry price (in dollars) derived from a fill in sync_kalshi_trades. -/
def sync_entry_price (fill : KalshiFill) : ℚ :=
  if sync_direction fill = "yes" then fill.yes_price / 100 else fill.no_price / 100

/-- The in-place update sync_kalshi_trades applies to a matched order
trade: venue trade id replaced by the fill id, true entry price, amount,
shares and fees taken from the fill. -/
def sync_updated_trade (fill : KalshiFill) (t : TradeRow) : TradeRow :=
  { t with
    platform_trade_id := some ("fill_" ++ fill.fill_id)
    entry_price := py_round (sync_entry_price fill) 4
    amount := py_round ((fill.count : ℚ) * sync_entry_price fill) 2
    shares := some (py_round (fill.count : ℚ) 4)
    fees_paid := py_round (fill.fee_cost / 100) 4 }

/-- The fresh trade sync_kalshi_trades inserts when no order trade
matches: source api_sync, venue trade id fill_ plus the fill id. -/
def sync_new_trade (recs : List RecommendationRow) (fill : KalshiFill)
    (new_id : String) (now : ℕ) (market_id : String) : TradeRow :=
  let rec_id :=
    match get_recommendation_for_market recs market_id with
    | some r => if r = "" then none else some r
    | none => none
  { id := new_id
    market_id := market_id
    recommendation_id := rec_id
    platform := "kalshi"
    direction := sync_direction fill
    entry_price := py_round (sync_entry_price fill) 4
    amount := py_round ((fill.count : ℚ) * sync_entry_price fill) 2
    shares := some (py_round (fill.count : ℚ) 4)
    status := "open"
    exit_price := none
    pnl := none
    fees_paid := py_round (fill.fee_cost / 100) 4
    notes := some ("[Auto-synced] " ++ py_lower fill.action ++ " "
      ++ toString fill.count ++ "x " ++ fill.ticker)
    source := "api_sync"
    platform_trade_id := some ("fill_" ++ fill.fill_id)
    created_at := now
    closed_at := none }

/-- Outcome counters of the sync loop body. -/
inductive SyncOutcome where
  | skipped
  | updated
  | created
deriving DecidableEq

/-- One iteration of the fill loop in sync_kalshi_trades: skip fills
without id, fills already recorded, and fills for untracked markets;
update a matching open order trade in place, otherwise insert a fresh
api_sync trade. -/
def process_kalshi_fill (s : StoreState) (fill : KalshiFill)
    (new_id : String) (now : ℕ) : StoreState × SyncOutcome :=
  if fill.fill_id = "" then (s, SyncOutcome.skipped)
  else
    let platform_trade_id := "fill_" ++ fill.fill_id
    if platform_trade_id ∈ existing_synced_trade_ids s.trades "kalshi" then
      (s, SyncOutcome.skipped)
    else
      match get_market_id_by_platform s.markets "kalshi" fill.ticker with
      | none => (s, SyncOutcome.skipped)
      | some market_id =>
          match find_order_trade_for_fill s.trades market_id (sync_direction fill) "kalshi" with
          | some existing_order =>
              ({ s with trades :=
                  update_trade_row s.trades existing_order.id (sync_updated_trade fill) },
               SyncOutcome.updated)
          | none =>
              ({ s with trades :=
                  s.trades ++ [sync_new_trade s.recommendations fill new_id now market_id] },
               SyncOutcome.created)

/-- Number of trades carrying a given venue trade id. -/
def fill_count (trades : List TradeRow) (ptid : String) : ℕ :=
  trades.countP (fun t => decide (t.platform_trade_id = some ptid))

/-- Claim-side statement of the EV rule for the kalshi venue, written
from the words of the spec: fee(p) = 0.07 p (1 − p) on the side
entered, pick the side with greater positive ev, absent when neither
side clears zero. -/
def ev_spec_kalshi (p_ai p_mkt : ℚ) : Option EvResult :=
  let fee : ℚ → ℚ := fun p => 0.07 * p * (1 - p)
  let yes_ev := (p_ai - p_mkt) - fee p_mkt
  let no_ev := (p_mkt - p_ai) - fee (1 - p_mkt)
  if 0 < yes_ev ∧ no_ev ≤ yes_ev then
    some { direction := "yes", edge := py_round (p_ai - p_mkt) 4,
           ev := py_round yes_ev 4 }
  else if 0 < no_ev then
    some { direction := "no", edge := py_round (p_mkt - p_ai) 4,
           ev := py_round no_ev 4 }
  else none

-- Concrete store contents used to instantiate the universally
-- quantified theorems below on executable inputs.

/-- A performance row already recorded for market m. -/
def W5row : PerformanceRow :=
  { market_id := "m", recommendation_id := none, ai_probability := 0.6
    market_price := 0.5, actual_outcome := true, pnl := none
    simulated_pnl := none, brier_score := 0.16 }

/-- A performance log already holding one row for market m. -/
def W5log : List PerformanceRow := [W5row]

/-- An auto-placed order trade awaiting its fill. -/
def W6trade : TradeRow :=
  { id := "t1", market_id := "m1", recommendation_id := none
    platform := "kalshi", direction := "yes", entry_price := 0.5
    amount := 10, shares := some 20, status := "open", exit_price := none
    pnl := none, fees_paid := 0, notes := none, source := "api_sync"
    platform_trade_id := some ("order_" ++ "abc"), created_at := 5
    closed_at := none }

/-- The tracked market of the order trade. -/
def W6market : MarketRow :=
  { id := "m1", platform := "kalshi", platform_id := "TICK1"
    status := "active", outcome := none }

/-- Store holding the order trade and its market. -/
def W6state : StoreState :=
  { markets := [W6market], trades := [W6trade]
    recommendations := [], performance_log := [] }

/-- The later fill referencing the auto-placed order. -/
def W6fill : KalshiFill :=
  { fill_id := "F1", ticker := "TICK1", side := "yes", action := "buy"
    count := 3, yes_price := 55, no_price := 45, fee_cost := 2 }

/-- An open trade with no recorded profit or loss. -/
def W7trade : TradeRow :=
  { id := "t1", market_id := "m1", recommendation_id := none
    platform := "kalshi", direction := "yes", entry_price := 0.5
    amount := 10, shares := some 20, status := "open", exit_price := none
    pnl := none, fees_paid := 0, notes := none, source := "api_sync"
    platform_trade_id := some "order_xyz", created_at := 5
    closed_at := none }

/-- An active market for the cancellation scenario. -/
def W7market : MarketRow :=
  { id := "m1", platform := "kalshi", platform_id := "TICK1"
    status := "active", outcome := none }

/-- An active recommendation for the cancellation scenario. -/
def W7rec : RecommendationRow :=
  { id := "r1", market_id := "m1", direction := "yes", market_price := 0.5
    kelly_fraction := 0.02, status := "active", created_at := 1 }

/-- Store holding an active market, recommendation and open trade. -/
def W7state : StoreState :=
  { markets := [W7market], trades := [W7trade]
    recommendations := [W7rec], performance_log := [] }

-- ── Helper lemmas on banker rounding ────────────────────────────────

theorem round_half_even_intCast (n : ℤ) : round_half_even (n : ℚ) = n := by
  unfold round_half_even
  rw [Int.floor_intCast]
  norm_num

theorem le_round_half_even {x : ℚ} {n : ℤ} (h : (n : ℚ) ≤ x) :
    n ≤ round_half_even x := by
  have hf : n ≤ ⌊x⌋ := Int.le_floor.mpr h
  unfold round_half_even
  dsimp only
  split
  · exact hf
  · split
    · omega
    · split <;> omega

theorem round_half_even_le {x : ℚ} {n : ℤ} (h : x ≤ (n : ℚ)) :
    round_half_even x ≤ n := by
  have hf : ⌊x⌋ ≤ n := by
    have := Int.floor_mono h
    rwa [Int.floor_intCast] at this
  unfold round_half_even
  dsimp only
  split
  · exact hf
  · rename_i h1
    have hr : (1 : ℚ) / 2 ≤ x - ⌊x⌋ := le_of_not_lt h1
    have hlt : (⌊x⌋ : ℚ) < x := by linarith
    have hn : ⌊x⌋ < n := by
      have : (⌊x⌋ : ℚ) < (n : ℚ) := lt_of_lt_of_le hlt h
      exact_mod_cast this
    split
    · omega
    · split <;> omega

theorem py_round_nonneg {x : ℚ} (h : 0 ≤ x) : 0 ≤ py_round x 4 := by
  unfold py_round
  dsimp only
  have hm : (0 : ℚ) ≤ x * (10 : ℚ) ^ (4 : ℕ) := by positivity
  have h0 : (0 : ℤ) ≤ round_half_even (x * (10 : ℚ) ^ (4 : ℕ)) :=
    le_round_half_even (by exact_mod_cast hm)
  have : (0 : ℚ) ≤ (round_half_even (x * (10 : ℚ) ^ (4 : ℕ)) : ℚ) := by
    exact_mod_cast h0
  positivity

theorem py_round_le {x M : ℚ} {n : ℤ} (hM : M * 10000 = (n : ℚ)) (h : x ≤ M) :
    py_round x 4 ≤ M := by
  unfold py_round
  dsimp only
  have hten : ((10 : ℚ) ^ (4 : ℕ)) = 10000 := by norm_num
  rw [hten]
  have hx : x * 10000 ≤ (n : ℚ) := by
    rw [← hM]
    have : (0 : ℚ) < 10000 := by norm_num
    exact mul_le_mul_of_nonneg_right h (by norm_num)
  have hle : round_half_even (x * 10000) ≤ n := round_half_even_le hx
  have hle' : (round_half_even (x * 10000) : ℚ) ≤ (n : ℚ) := by exact_mod_cast hle
  have h10000 : (0 : ℚ) < 10000 := by norm_num
  have hdiv : (round_half_even (x * 10000) : ℚ) / 10000 ≤ (n : ℚ) / 10000 := by
    gcongr
  have hMn : (n : ℚ) / 10000 = M := by
    rw [← hM]
    field_simp
  rwa [hMn] at hdiv

theorem py_round_eq_self {x : ℚ} (h : ∃ k : ℤ, x * 10000 = (k : ℚ)) :
    py_round x 4 = x := by
  obtain ⟨k, hk⟩ := h
  unfold py_round
  dsimp only
  have hten : ((10 : ℚ) ^ (4 : ℕ)) = 10000 := by norm_num
  rw [hten, hk, round_half_even_intCast, ← hk]
  field_simp

-- ── Claim theorems: calculator and researcher ───────────────────────

/-- C2: Researcher.estimate is blind to volume — for any two volume
values (including absent) it builds exactly the same system prompt and
user message, and volume influences only model selection: manual or
premium forces the high-value model, else volume at or above the
threshold selects it, else the default model. -/
theorem estimate_volume_blindness (files : PromptFiles) (bi : BlindMarketInput)
    (v1 v2 : Option ℚ) (manual use_premium : Bool) :
    (estimate_call files bi v1 manual use_premium).user_prompt =
        (estimate_call files bi v2 manual use_premium).user_prompt
      ∧ (estimate_call files bi v1 manual use_premium).system_prompt =
        (estimate_call files bi v2 manual use_premium).system_prompt
      ∧ (estimate_call files bi v1 manual use_premium).model =
          (if manual || use_premium then Settings.high_value_model
           else
             match v1 with
             | some v =>
                 if Settings.high_value_volume_threshold ≤ v then
                   Settings.high_value_model
                 else Settings.default_model
             | none => Settings.default_model) :=
  ⟨rfl, rfl, rfl⟩

/-- C3: should_recommend applies the weak-estimate filter first (ai
estimate in the band 0.42 to 0.58 requires ev at least 0.12 regardless
of confidence); otherwise low confidence never recommends, medium
requires ev at least 0.08, high at least 0.05, and with confidence
absent the flat min_edge threshold (default 0.03) decides. -/
theorem should_recommend_spec (ev : ℚ) (confidence : Option Confidence)
    (ai_estimate min_edge : Option ℚ) :
    should_recommend ev (confidence.map ConfValue.conf) ai_estimate min_edge =
      Except.ok
        (match ai_estimate with
         | some a =>
             if 0.42 ≤ a ∧ a ≤ 0.58 then decide (0.12 ≤ ev)
             else
               match confidence with
               | some Confidence.low => false
               | some Confidence.medium => decide (0.08 ≤ ev)
               | some Confidence.high => decide (0.05 ≤ ev)
               | none => decide (min_edge.getD 0.03 ≤ ev)
         | none =>
             match confidence with
             | some Confidence.low => false
             | some Confidence.medium => decide (0.08 ≤ ev)
             | some Confidence.high => decide (0.05 ≤ ev)
             | none => decide (min_edge.getD 0.03 ≤ ev)) := by
  cases ai_estimate with
  | none =>
      cases confidence with
      | none => rfl
      | some c => cases c <;> rfl
  | some a =>
      by_cases h : (0.42 : ℚ) ≤ a ∧ a ≤ 0.58
      · simp only [should_recommend, should_recommend_core, if_pos h]
      · have hsr : should_recommend ev (confidence.map ConfValue.conf)
            (some a) min_edge
            = confidence_branch_eval (decide (0.08 ≤ ev)) ev
                (confidence.map ConfValue.conf) min_edge := by
          simp only [should_recommend, should_recommend_core, if_neg h]
        rw [hsr]
        dsimp only
        rw [if_neg h]
        cases confidence with
        | none => rfl
        | some c => cases c <;> rfl

/-- C4: for the kalshi venue calculate_ev uses the price-dependent fee
0.07 p (1 − p) on the side entered, returns the direction with the
greater positive expected value together with its rounded edge and ev,
and returns none exactly when neither side has positive expected
value. -/
theorem calculate_ev_kalshi_spec (p_ai p_mkt : ℚ) :
    calculate_ev p_ai p_mkt "kalshi" = ev_spec_kalshi p_ai p_mkt
    ∧ (calculate_ev p_ai p_mkt "kalshi" = none ↔
        (p_ai - p_mkt) - 0.07 * p_mkt * (1 - p_mkt) ≤ 0
          ∧ (p_mkt - p_ai) - 0.07 * (1 - p_mkt) * (1 - (1 - p_mkt)) ≤ 0) := by
  have hEq : calculate_ev p_ai p_mkt "kalshi" = ev_spec_kalshi p_ai p_mkt := rfl
  refine ⟨hEq, ?_⟩
  rw [hEq]
  unfold ev_spec_kalshi
  dsimp only
  split_ifs with h1 h2
  · simp only [reduceCtorEq, false_iff]
    intro hc
    linarith [hc.1, h1.1]
  · simp only [reduceCtorEq, false_iff]
    intro hc
    linarith [hc.2]
  · simp only [true_iff]
    have h2' := le_of_not_lt h2
    constructor
    · by_contra hA
      push_neg at hA
      push_neg at h1
      have := h1 hA
      linarith
    · exact h2'

/-- C1: in the finalize step of the scanner pipeline the recommendation
gate is should_recommend applied to the ev alone — confidence and ai
estimate are not passed.  On a kalshi market with snapshot price 0.55
and an estimate of probability 0.70 at low confidence, the pipeline
gate passes (flat fallback threshold 0.03), while
ShouldRecommend(ev, confidence, p_ai) as the spec requires returns
false for low confidence: the confidence-gated curve is not the gate
the pipeline actually applies. -/
theorem finalize_gate_ignores_confidence :
    finalize_gate 0.70 0.55 "kalshi" = true
    ∧ calculate_ev 0.70 0.55 "kalshi" =
        some { direction := "yes", edge := 0.15, ev := 0.1327 }
    ∧ should_recommend 0.1327 (some (ConfValue.conf Confidence.low))
        (some 0.70) none = Except.ok false := by
  refine ⟨?_, ?_, ?_⟩
  · norm_num [finalize_gate, calculate_ev, get_platform_fee, kalshi_fee,
      py_round, round_half_even, should_recommend, should_recommend_core,
      confidence_branch_eval, Settings.min_edge_threshold]
  · norm_num [calculate_ev, get_platform_fee, kalshi_fee, py_round,
      round_half_even]
  · norm_num [should_recommend, should_recommend_core, confidence_branch_eval]

/-- C8 counterexample: with max_bet_fraction = −1 the result of
calculate_kelly is 0, which does not lie in the interval
[0, maxFraction]: the claimed bound fails for all inputs as stated. -/
theorem calculate_kelly_cap_counterexample :
    calculate_kelly 0.1 0.5 "yes" Confidence.high (some 0.33) (some (-1)) = 0
    ∧ ¬ calculate_kelly 0.1 0.5 "yes" Confidence.high (some 0.33) (some (-1)) ≤ -1 := by
  constructor
  · norm_num [calculate_kelly, CONFIDENCE_MULTIPLIERS, py_round,
      round_half_even, min_def, max_def]
  · norm_num [calculate_kelly, CONFIDENCE_MULTIPLIERS, py_round,
      round_half_even, min_def, max_def]

theorem kelly_clamp_bounds (x M' : ℚ) (hM : 0 ≤ M')
    (hn : ∃ n : ℤ, M' * 10000 = (n : ℚ)) :
    0 ≤ py_round (max 0 (min x M')) 4 ∧ py_round (max 0 (min x M')) 4 ≤ M' := by
  obtain ⟨n, hn⟩ := hn
  constructor
  · exact py_round_nonneg (le_max_left _ _)
  · exact py_round_le hn (max_le hM (min_le_right _ _))

/-- C8 (amended): calculate_kelly equals the 4-decimal rounding of the
confidence-scaled fractional Kelly clamped to [0, maxFraction] (0 on a
non-positive denominator), and whenever maxFraction is nonnegative and
an integer multiple of 0.0001 — as the default 0.05 is — the returned
value lies in [0, maxFraction]. -/
theorem calculate_kelly_bounds (edge market_price : ℚ) (direction : String)
    (confidence : Confidence) (kf M : Option ℚ) :
    calculate_kelly edge market_price direction confidence kf M =
        (match (if direction = "yes" then
                  (if 1 - market_price ≤ 0 then none
                   else some (edge / (1 - market_price)))
                else
                  (if market_price ≤ 0 then none
                   else some (edge / market_price))) with
         | none => (0 : ℚ)
         | some fk =>
             py_round
               (max 0 (min (fk * kf.getD 0.33 * CONFIDENCE_MULTIPLIERS confidence)
                 (M.getD 0.05))) 4)
    ∧ (0 ≤ M.getD 0.05 → (∃ n : ℤ, M.getD 0.05 * 10000 = (n : ℚ)) →
        0 ≤ calculate_kelly edge market_price direction confidence kf M
        ∧ calculate_kelly edge market_price direction confidence kf M ≤ M.getD 0.05) := by
  constructor
  · rfl
  · intro hM hn
    unfold calculate_kelly
    dsimp only
    split
    · exact ⟨le_refl 0, hM⟩
    · exact kelly_clamp_bounds _ _ hM hn

theorem calculate_kelly_bounds_witness :
    0 ≤ calculate_kelly 0.1 0.5 "yes" Confidence.high none none
    ∧ calculate_kelly 0.1 0.5 "yes" Confidence.high none none ≤ 0.05 :=
  (calculate_kelly_bounds 0.1 0.5 "yes" Confidence.high none none).2
    (by norm_num) ⟨500, by norm_num⟩

/-- C9 counterexample: at p = 0 the sum Brier(p, 1) + Brier(1 − p, 0)
computed by calculate_brier_score is 2, while 2p² − 2p + 1 is 1: the
claimed identity is false. -/
theorem brier_identity_counterexample :
    ¬ (calculate_brier_score 0 true + calculate_brier_score (1 - 0) false =
        2 * (0 : ℚ) ^ 2 - 2 * 0 + 1) := by
  norm_num [calculate_brier_score, py_round, round_half_even]

/-- C9 (amended): for every whole-percent probability p (100 p an
integer, so the 4-decimal rounding inside calculate_brier_score is
exact), Brier(p, 1) + Brier(p, 0) = 2p² − 2p + 1; the claimed left side
used Brier(1 − p, 0), which equals Brier(p, 1), so its sum is
2(1 − p)² instead. -/
theorem brier_complement_identity (p : ℚ) (h : ∃ k : ℤ, p * 100 = (k : ℚ)) :
    calculate_brier_score p true + calculate_brier_score p false
      = 2 * p ^ 2 - 2 * p + 1 := by
  obtain ⟨k, hk⟩ := h
  have hp : p = (k : ℚ) / 100 := by
    field_simp
    linarith
  have e1 : calculate_brier_score p true = py_round ((p - 1) ^ 2) 4 := by
    norm_num [calculate_brier_score]
  have e2 : calculate_brier_score p false = py_round ((p - 0) ^ 2) 4 := by
    norm_num [calculate_brier_score]
  have h1 : py_round ((p - 1) ^ 2) 4 = (p - 1) ^ 2 :=
    py_round_eq_self ⟨(k - 100) ^ 2, by subst hp; push_cast; ring⟩
  have h2 : py_round ((p - 0) ^ 2) 4 = (p - 0) ^ 2 :=
    py_round_eq_self ⟨k ^ 2, by subst hp; push_cast; ring⟩
  rw [e1, e2, h1, h2]
  ring

theorem brier_complement_identity_witness :
    calculate_brier_score 0.3 true + calculate_brier_score 0.3 false
      = 2 * (0.3 : ℚ) ^ 2 - 2 * 0.3 + 1 :=
  brier_complement_identity 0.3 ⟨30, by norm_num⟩

/-- C10: for any confidence string outside high, medium, low (and an ai
estimate outside the weak band or absent) should_recommend raises
ValueError from the enum conversion instead of returning a boolean, and
the trailing ev at least 0.08 fallback inside the confidence branch is
unreachable: the result never depends on its value. -/
theorem should_recommend_invalid_string (ev : ℚ) (s : String)
    (ai_estimate min_edge : Option ℚ) :
    ((s ≠ "high") → (s ≠ "medium") → (s ≠ "low") →
      (match ai_estimate with
       | some a => ¬ (0.42 ≤ a ∧ a ≤ 0.58)
       | none => True) →
      should_recommend ev (some (ConfValue.str s)) ai_estimate min_edge =
        Except.error "ValueError: invalid Confidence")
    ∧ (∀ trailing : Bool, ∀ carg : Option ConfValue,
        should_recommend_core trailing ev carg ai_estimate min_edge =
          should_recommend ev carg ai_estimate min_edge) := by
  constructor
  · intro h1 h2 h3 h4
    have hconv : confidence_of_string s = none := by
      unfold confidence_of_string
      rw [if_neg h1, if_neg h2, if_neg h3]
    cases ai_estimate with
    | none =>
        simp only [should_recommend, should_recommend_core,
          confidence_branch_eval, hconv]
    | some a =>
        simp only [should_recommend, should_recommend_core]
        rw [if_neg h4]
        simp only [confidence_branch_eval, hconv]
  · intro trailing carg
    have hcb : ∀ b : Bool, confidence_branch_eval b ev carg min_edge
        = confidence_branch_eval (decide (0.08 ≤ ev)) ev carg min_edge := by
      intro b
      cases carg with
      | none => rfl
      | some cv =>
          cases cv with
          | conf c => cases c <;> rfl
          | str s' =>
              unfold confidence_branch_eval
              dsimp only
              cases hc : confidence_of_string s' with
              | none => rfl
              | some c => cases c <;> rfl
    unfold should_recommend should_recommend_core
    cases ai_estimate with
    | none => exact hcb trailing
    | some a =>
        dsimp only
        by_cases h : (0.42 : ℚ) ≤ a ∧ a ≤ 0.58
        · rw [if_pos h, if_pos h]
        · rw [if_neg h, if_neg h]
          exact hcb trailing

theorem should_recommend_invalid_string_witness :
    should_recommend 0.2 (some (ConfValue.str "extreme")) none none =
        Except.error "ValueError: invalid Confidence"
    ∧ should_recommend_core false 0.2 (some (ConfValue.conf Confidence.high))
        none none =
      should_recommend 0.2 (some (ConfValue.conf Confidence.high)) none none := by
  have h := should_recommend_invalid_string 0.2 "extreme" none none
  have h2 := (should_recommend_invalid_string 0.2 "x" none none).2 false
    (some (ConfValue.conf Confidence.high))
  exact ⟨h.1 (by decide) (by decide) (by decide) trivial, h2⟩

-- ── Claim theorems: idempotent resolution (performance log) ─────────

theorem perf_count_any_iff (log : List PerformanceRow) (m : String) :
    log.any (fun r => decide (r.market_id = m)) = true ↔ perf_count log m ≠ 0 := by
  unfold perf_count
  rw [List.any_eq_true]
  constructor
  · rintro ⟨r, hr, hp⟩
    have hpos : 0 < log.countP (fun r => decide (r.market_id = m)) :=
      List.countP_pos_iff.mpr ⟨r, hr, hp⟩
    omega
  · intro hne
    have hpos : 0 < log.countP (fun r => decide (r.market_id = m)) :=
      Nat.pos_of_ne_zero hne
    exact List.countP_pos_iff.mp hpos

theorem insert_performance_skip (log : List PerformanceRow) (market_id : String)
    (ai_probability market_price : ℚ) (actual_outcome : Bool)
    (brier_score : ℚ) (recommendation_id : Option String)
    (pnl simulated_pnl : Option ℚ)
    (hne : perf_count log market_id ≠ 0) :
    insert_performance log market_id ai_probability market_price actual_outcome
      brier_score recommendation_id pnl simulated_pnl = (log, none) := by
  unfold insert_performance
  rw [if_pos ((perf_count_any_iff log market_id).mpr hne)]

theorem insert_performance_count (log : List PerformanceRow) (market_id : String)
    (ai_probability market_price : ℚ) (actual_outcome : Bool)
    (brier_score : ℚ) (recommendation_id : Option String)
    (pnl simulated_pnl : Option ℚ) :
    perf_count (insert_performance log market_id ai_probability market_price
      actual_outcome brier_score recommendation_id pnl simulated_pnl).1 market_id
      = max (perf_count log market_id) 1 := by
  unfold insert_performance
  by_cases hx : log.any (fun r => decide (r.market_id = market_id)) = true
  · rw [if_pos hx]
    have hne := (perf_count_any_iff log market_id).mp hx
    have h1 : 1 ≤ perf_count log market_id := Nat.pos_of_ne_zero hne
    exact (Nat.max_eq_left h1).symm
  · rw [if_neg hx]
    have h0 : perf_count log market_id = 0 := by
      by_contra hne
      exact hx ((perf_count_any_iff log market_id).mpr hne)
    unfold perf_count at h0 ⊢
    dsimp only
    rw [List.countP_append, h0]
    simp

theorem insert_performance_twice (log : List PerformanceRow) (market_id : String)
    (a1 a2 : ℚ) (a3 : Bool) (a4 : ℚ) (a5 : Option String) (a6 a7 : Option ℚ)
    (b1 b2 : ℚ) (b3 : Bool) (b4 : ℚ) (b5 : Option String) (b6 b7 : Option ℚ) :
    (insert_performance (insert_performance log market_id a1 a2 a3 a4 a5 a6 a7).1
        market_id b1 b2 b3 b4 b5 b6 b7).1
      = (insert_performance log market_id a1 a2 a3 a4 a5 a6 a7).1 := by
  have hcnt := insert_performance_count log market_id a1 a2 a3 a4 a5 a6 a7
  have hne : perf_count
      (insert_performance log market_id a1 a2 a3 a4 a5 a6 a7).1 market_id ≠ 0 := by
    rw [hcnt]
    omega
  rw [insert_performance_skip _ _ b1 b2 b3 b4 b5 b6 b7 hne]

/-- C5: resolution is idempotent with respect to the performance log —
running the performance write of resolve_market_trades twice yields the
same log as running it once; when an estimate and snapshot exist the
single run leaves exactly max(previous count, 1) rows for the market;
and on a log that already holds a row for the market insert_performance
returns the skip sentinel none with the log unchanged, which the caller
treats as success. -/
theorem resolve_idempotent (log : List PerformanceRow) (market_id : String)
    (outcome : Bool) (closed_trades : List TradeRow)
    (estimate : Option EstimateRow) (snapshot : Option SnapshotRow)
    (recommendation : Option RecommendationRow) (bankroll : ℚ)
    (ai_probability market_price brier_score : ℚ)
    (recommendation_id : Option String) (pnl simulated_pnl : Option ℚ) :
    resolve_market_trades_perf
        (resolve_market_trades_perf log market_id outcome closed_trades estimate
          snapshot recommendation bankroll)
        market_id outcome closed_trades estimate snapshot recommendation bankroll
      = resolve_market_trades_perf log market_id outcome closed_trades estimate
          snapshot recommendation bankroll
    ∧ (estimate.isSome → snapshot.isSome →
        perf_count
          (resolve_market_trades_perf log market_id outcome closed_trades estimate
            snapshot recommendation bankroll) market_id
          = max (perf_count log market_id) 1)
    ∧ (perf_count log market_id ≠ 0 →
        insert_performance log market_id ai_probability market_price outcome
          brier_score recommendation_id pnl simulated_pnl = (log, none)) := by
  refine ⟨?_, ?_, ?_⟩
  · rcases estimate with _ | e <;> rcases snapshot with _ | sn
    · rfl
    · rfl
    · rfl
    · unfold resolve_market_trades_perf
      dsimp only
      exact insert_performance_twice log market_id _ _ _ _ _ _ _ _ _ _ _ _ _ _
  · intro hest hsnap
    rcases estimate with _ | e
    · simp at hest
    rcases snapshot with _ | sn
    · simp at hsnap
    unfold resolve_market_trades_perf
    dsimp only
    exact insert_performance_count log market_id _ _ _ _ _ _ _
  · intro hne
    exact insert_performance_skip log market_id _ _ _ _ _ _ _ hne

theorem resolve_idempotent_witness :
    resolve_market_trades_perf
        (resolve_market_trades_perf W5log "m" true [] (some ⟨0.6⟩) (some ⟨0.5⟩)
          none 1000)
        "m" true [] (some ⟨0.6⟩) (some ⟨0.5⟩) none 1000
      = resolve_market_trades_perf W5log "m" true [] (some ⟨0.6⟩) (some ⟨0.5⟩)
          none 1000
    ∧ perf_count
        (resolve_market_trades_perf W5log "m" true [] (some ⟨0.6⟩) (some ⟨0.5⟩)
          none 1000) "m"
        = max (perf_count W5log "m") 1
    ∧ insert_performance W5log "m" 0.6 0.5 true 0.16 none none none
        = (W5log, none) := by
  have h := resolve_idempotent W5log "m" true [] (some ⟨0.6⟩) (some ⟨0.5⟩)
    none 1000 0.6 0.5 0.16 none none none
  refine ⟨h.1, h.2.1 rfl rfl, h.2.2 ?_⟩
  simp [perf_count, W5log, W5row]

-- ── Claim theorems: cancellation path ───────────────────────────────

/-- C7 counterexample: cancelling a market with one open trade leaves
that trade cancelled with closed_at set but with pnl still null — the
claimed pnl = 0 does not hold. -/
theorem handle_cancelled_pnl_counterexample :
    ((handle_cancelled_resolution W7state "m1" 7).trades.map
        (fun t => (t.status, t.pnl, t.closed_at))
      = [("cancelled", (none : Option ℚ), some 7)])
    ∧ ¬ ((handle_cancelled_resolution W7state "m1" 7).trades.map (fun t => t.pnl)
      = [some 0]) := by
  constructor
  · simp [handle_cancelled_resolution, cancel_trades_for_market, W7state, W7trade]
  · simp [handle_cancelled_resolution, cancel_trades_for_market, W7state, W7trade]

/-- C7 (amended): on a cancelled resolution the market status becomes
closed, every active recommendation of the market becomes expired,
every open trade of the market becomes cancelled with closed_at set and
a note appended while its pnl column is left untouched (null for open
trades, not 0), and no performance row is written. -/
theorem handle_cancelled_spec (s : StoreState) (market_id : String) (now : ℕ) :
    (handle_cancelled_resolution s market_id now).performance_log
        = s.performance_log
    ∧ ((handle_cancelled_resolution s market_id now).trades.map (fun t => t.pnl)
        = s.trades.map (fun t => t.pnl))
    ∧ (∀ m ∈ s.markets, m.id = market_id →
        { m with status := "closed" }
          ∈ (handle_cancelled_resolution s market_id now).markets)
    ∧ (∀ r ∈ s.recommendations, r.market_id = market_id → r.status = "active" →
        { r with status := "expired" }
          ∈ (handle_cancelled_resolution s market_id now).recommendations)
    ∧ (∀ t ∈ s.trades, t.market_id = market_id → t.status = "open" →
        { t with status := "cancelled", closed_at := some now,
                 notes := some (((t.notes.getD "")
                    ++ " [Market cancelled/voided]").trim) }
          ∈ (handle_cancelled_resolution s market_id now).trades) := by
  refine ⟨rfl, ?_, ?_, ?_, ?_⟩
  · show (cancel_trades_for_market s.trades market_id now).map (fun t => t.pnl)
        = s.trades.map (fun t => t.pnl)
    unfold cancel_trades_for_market
    rw [List.map_map]
    apply List.map_congr_left
    intro t _
    by_cases hcond : t.market_id = market_id ∧ t.status = "open"
    · simp only [Function.comp_apply, if_pos hcond]
    · simp only [Function.comp_apply, if_neg hcond]
  · intro m hm hid
    refine List.mem_map.mpr ⟨m, hm, ?_⟩
    rw [if_pos hid]
  · intro r hr hmk hst
    refine List.mem_map.mpr ⟨r, hr, ?_⟩
    rw [if_pos ⟨hmk, hst⟩]
  · intro t ht hmk hst
    refine List.mem_map.mpr ⟨t, ht, ?_⟩
    rw [if_pos ⟨hmk, hst⟩]

theorem handle_cancelled_spec_witness :
    ({ W7market with status := "closed" }
        ∈ (handle_cancelled_resolution W7state "m1" 3).markets)
    ∧ ((handle_cancelled_resolution W7state "m1" 3).trades.map (fun t => t.pnl)
        = W7state.trades.map (fun t => t.pnl)) := by
  have h := handle_cancelled_spec W7state "m1" 3
  exact ⟨h.2.2.1 W7market (by simp [W7state]) rfl, h.2.1⟩

-- ── Claim theorems: order-fill deduplication ────────────────────────

theorem pick_latest_go_mem {α : Type} (f : α → ℕ) :
    ∀ (l : List α) (acc : Option α) (t : α),
      l.foldl
        (fun acc t => match acc with
          | none => some t
          | some u => if f u < f t then some t else some u) acc = some t →
      t ∈ l ∨ acc = some t := by
  intro l
  induction l with
  | nil =>
      intro acc t h
      exact Or.inr h
  | cons a l ih =>
      intro acc t h
      rw [List.foldl_cons] at h
      rcases ih _ t h with hmem | hacc
      · exact Or.inl (List.mem_cons_of_mem _ hmem)
      · cases acc with
        | none =>
            have ha : a = t := by
              simpa using hacc
          --
            exact Or.inl (ha ▸ List.mem_cons_self a l)
        | some u =>
            dsimp only at hacc
            by_cases hlt : f u < f a
            · rw [if_pos hlt] at hacc
              have ha : a = t := by simpa using hacc
              exact Or.inl (ha ▸ List.mem_cons_self a l)
            · rw [if_neg hlt] at hacc
              exact Or.inr hacc

theorem pick_latest_mem {α : Type} (f : α → ℕ) (l : List α) (t : α)
    (h : pick_latest f l = some t) : t ∈ l := by
  unfold pick_latest at h
  rcases pick_latest_go_mem f l none t h with hmem | habs
  · exact hmem
  · cases habs

theorem pick_latest_go_isSome {α : Type} (f : α → ℕ) :
    ∀ (l : List α) (u : α),
      (l.foldl
        (fun acc t => match acc with
          | none => some t
          | some u => if f u < f t then some t else some u) (some u)).isSome := by
  intro l
  induction l with
  | nil =>
      intro u
      rfl
  | cons a l ih =>
      intro u
      rw [List.foldl_cons]
      dsimp only
      by_cases hlt : f u < f a
      · rw [if_pos hlt]
        exact ih a
      · rw [if_neg hlt]
        exact ih u

theorem pick_latest_isSome_of_ne_nil {α : Type} (f : α → ℕ) (l : List α)
    (h : l ≠ []) : (pick_latest f l).isSome := by
  cases l with
  | nil => exact absurd rfl h
  | cons a l =>
      unfold pick_latest
      rw [List.foldl_cons]
      exact pick_latest_go_isSome f l a

theorem find_order_trade_mem {trades : List TradeRow}
    {market_id direction platform : String} {t : TradeRow}
    (h : find_order_trade_for_fill trades market_id direction platform = some t) :
    t ∈ trades ∧ t.platform = platform ∧ t.market_id = market_id
      ∧ t.direction = direction ∧ t.status = "open"
      ∧ ∃ pid, t.platform_trade_id = some pid ∧ like_order_pattern pid = true := by
  unfold find_order_trade_for_fill at h
  have hmem := pick_latest_mem _ _ _ h
  have hf := List.mem_filter.mp hmem
  obtain ⟨ht, hp⟩ := hf
  simp only [Bool.and_eq_true, decide_eq_true_eq] at hp
  obtain ⟨⟨⟨⟨h1, h2⟩, h3⟩, h4⟩, h5⟩ := hp
  refine ⟨ht, h1, h2, h3, h4, ?_⟩
  cases hpid : t.platform_trade_id with
  | none => rw [hpid] at h5; cases h5
  | some pid =>
      rw [hpid] at h5
      exact ⟨pid, rfl, h5⟩

theorem countP_update_trade (trades : List TradeRow) (tid : String)
    (f : TradeRow → TradeRow) (ptid : String)
    (hf : ∀ t, (f t).platform_trade_id = some ptid)
    (hno : ∀ t ∈ trades, t.platform_trade_id ≠ some ptid) :
    fill_count (update_trade_row trades tid f) ptid
      = trades.countP (fun t => decide (t.id = tid)) := by
  unfold fill_count update_trade_row
  induction trades with
  | nil => rfl
  | cons a l ih =>
      rw [List.map_cons, List.countP_cons, List.countP_cons]
      rw [ih (fun t ht => hno t (List.mem_cons_of_mem a ht))]
      by_cases ha : a.id = tid
      · rw [if_pos ha]
        have hfa := hf a
        simp [hfa, ha]
      · rw [if_neg ha]
        have hna := hno a (List.mem_cons_self a l)
        simp [hna, ha]

theorem countP_id_eq_one (trades : List TradeRow) (t : TradeRow)
    (ht : t ∈ trades) (hnd : (trades.map (fun u => u.id)).Nodup) :
    trades.countP (fun u => decide (u.id = t.id)) = 1 := by
  induction trades with
  | nil => cases ht
  | cons a l ih =>
      rw [List.map_cons, List.nodup_cons] at hnd
      rw [List.countP_cons]
      rcases List.mem_cons.mp ht with rfl | hmem
      · have hl0 : l.countP (fun u => decide (u.id = t.id)) = 0 := by
          rw [List.countP_eq_zero]
          intro u hu
          simp only [decide_eq_true_eq]
          intro he
          exact hnd.1 (he ▸ List.mem_map.mpr ⟨u, hu, rfl⟩)
        simp [hl0]
      · have hne : ¬ (a.id = t.id) := by
          intro he
          exact hnd.1 (he ▸ List.mem_map.mpr ⟨t, hmem, rfl⟩)
        rw [ih hmem hnd.2]
        simp [hne]

/-- C6: processing a Kalshi fill that is not yet recorded, for a tracked
market: exactly one trade ends up carrying the venue trade id
fill_ + fill id; when an open order trade for the market and direction
matches, that trade is updated in place (same trade count, the matched
trade rewritten with the fill data); otherwise a fresh api_sync trade
with that id is appended; and the existence of an open trade whose
venue trade id starts with order_ guarantees the update branch is
taken. -/
theorem sync_kalshi_fill_dedup
    (s : StoreState) (fill : KalshiFill) (new_id : String) (now : ℕ) (mid : String)
    (hfid : fill.fill_id ≠ "")
    (hnew : ("fill_" ++ fill.fill_id) ∉ existing_synced_trade_ids s.trades "kalshi")
    (hmkt : get_market_id_by_platform s.markets "kalshi" fill.ticker = some mid)
    (hnone : ∀ t ∈ s.trades, t.platform_trade_id ≠ some ("fill_" ++ fill.fill_id))
    (hids : (s.trades.map (fun t => t.id)).Nodup) :
    fill_count (process_kalshi_fill s fill new_id now).1.trades
        ("fill_" ++ fill.fill_id) = 1
    ∧ (∀ t, find_order_trade_for_fill s.trades mid (sync_direction fill) "kalshi"
          = some t →
        (process_kalshi_fill s fill new_id now).2 = SyncOutcome.updated
        ∧ (process_kalshi_fill s fill new_id now).1.trades.length
            = s.trades.length
        ∧ sync_updated_trade fill t
            ∈ (process_kalshi_fill s fill new_id now).1.trades)
    ∧ (find_order_trade_for_fill s.trades mid (sync_direction fill) "kalshi"
          = none →
        (process_kalshi_fill s fill new_id now).2 = SyncOutcome.created
        ∧ (process_kalshi_fill s fill new_id now).1.trades
            = s.trades ++ [sync_new_trade s.recommendations fill new_id now mid])
    ∧ ((∃ t ∈ s.trades, t.platform = "kalshi" ∧ t.market_id = mid
          ∧ t.direction = sync_direction fill ∧ t.status = "open"
          ∧ ∃ tail, t.platform_trade_id = some ("order_" ++ tail)) →
        (find_order_trade_for_fill s.trades mid (sync_direction fill)
          "kalshi").isSome) := by
  have hstep : process_kalshi_fill s fill new_id now =
      (match find_order_trade_for_fill s.trades mid (sync_direction fill) "kalshi" with
       | some existing_order =>
           ({ s with trades :=
               update_trade_row s.trades existing_order.id (sync_updated_trade fill) },
            SyncOutcome.updated)
       | none =>
           ({ s with trades :=
               s.trades ++ [sync_new_trade s.recommendations fill new_id now mid] },
            SyncOutcome.created)) := by
    unfold process_kalshi_fill
    rw [if_neg hfid, if_neg hnew, hmkt]
  refine ⟨?_, ?_, ?_, ?_⟩
  · cases hfind : find_order_trade_for_fill s.trades mid (sync_direction fill)
        "kalshi" with
    | some t =>
        rw [hfind] at hstep
        rw [hstep]
        dsimp only
        obtain ⟨htmem, -⟩ := find_order_trade_mem hfind
        rw [countP_update_trade s.trades t.id (sync_updated_trade fill)
          ("fill_" ++ fill.fill_id) (fun u => rfl) hnone]
        exact countP_id_eq_one s.trades t htmem hids
    | none =>
        rw [hfind] at hstep
        rw [hstep]
        dsimp only
        unfold fill_count
        rw [List.countP_append]
        have h0 : s.trades.countP
            (fun t => decide (t.platform_trade_id = some ("fill_" ++ fill.fill_id)))
            = 0 := by
          rw [List.countP_eq_zero]
          intro u hu
          simp only [decide_eq_true_eq]
          exact hnone u hu
        rw [h0]
        simp [sync_new_trade]
  · intro t h
    rw [h] at hstep
    obtain ⟨htmem, -⟩ := find_order_trade_mem h
    refine ⟨by rw [hstep], ?_, ?_⟩
    · rw [hstep]
      dsimp only
      unfold update_trade_row
      exact List.length_map _ _
    · rw [hstep]
      dsimp only
      unfold update_trade_row
      exact List.mem_map.mpr ⟨t, htmem, by rw [if_pos rfl]⟩
  · intro h
    rw [h] at hstep
    exact ⟨by rw [hstep], by rw [hstep]⟩
  · rintro ⟨t, ht, hplat, hmk, hdir, hst, tail, hpid⟩
    have hlike : like_order_pattern ("order_" ++ tail) = true := by
      obtain ⟨data⟩ := tail
      rfl
    have hmem : t ∈ s.trades.filter (fun t =>
        decide (t.platform = "kalshi") && decide (t.market_id = mid)
          && decide (t.direction = sync_direction fill)
          && decide (t.status = "open")
          && (match t.platform_trade_id with
              | some pid => like_order_pattern pid
              | none => false)) := by
      refine List.mem_filter.mpr ⟨ht, ?_⟩
      simp only [Bool.and_eq_true, decide_eq_true_eq]
      refine ⟨⟨⟨⟨hplat, hmk⟩, hdir⟩, hst⟩, ?_⟩
      rw [hpid]
      exact hlike
    unfold find_order_trade_for_fill
    exact pick_latest_isSome_of_ne_nil _ _ (List.ne_nil_of_mem hmem)

theorem sync_kalshi_fill_dedup_witness :
    (process_kalshi_fill W6state W6fill "t2" 10).2 = SyncOutcome.updated
    ∧ fill_count (process_kalshi_fill W6state W6fill "t2" 10).1.trades
        ("fill_" ++ W6fill.fill_id) = 1
    ∧ (process_kalshi_fill W6state W6fill "t2" 10).1.trades.length
        = W6state.trades.length := by
  have h := sync_kalshi_fill_dedup W6state W6fill "t2" 10 "m1"
    (by decide) (by decide) (by rfl) (by decide) (by decide)
  have hdir : sync_direction W6fill = "yes" := by rfl
  have hfind : find_order_trade_for_fill W6state.trades "m1"
      (sync_direction W6fill) "kalshi" = some W6trade := by
    rw [hdir]
    rfl
  have hb := h.2.1 W6trade hfind
  exact ⟨hb.1, h.1, hb.2.1⟩

end Augur
